import Mathlib

/-!
Verification of the FragDropDetector frontend request/cache/state/router layer.

Shallow embedding of the JavaScript sources:
* `ApiClient` (`static/js/api/client.js` style module): GET cache, mutation
  verbs, retry loop (`_request`), `clearCache`.
* The services built on the client (`WatchlistService`, `DropsService`,
  `StockService`, `ConfigService`).
* `CacheManager` and `StateStore` (state/cache module).
* `DateUtils.parseTimestamp` (`static/js/utils/date.js`).
* `Router` (`static/js/router.js`).

JavaScript values are modelled by `JsVal` (with JS truthiness), JS `Map`s by
association lists with the first-match semantics of `Map.get`, time by `Int`
(epoch milliseconds, as produced by `Date.now()`).
-/

/-- A JSON-ish JavaScript value, sufficient to model response bodies and the
truthiness checks the source performs on them. -/
inductive JsVal : Type where
  | null : JsVal
  | bool : Bool → JsVal
  | num : Int → JsVal
  | str : String → JsVal
  | arr : List JsVal → JsVal
  | obj : List (String × JsVal) → JsVal

/-- JavaScript truthiness of a `JsVal` (`if (value)`); arrays and objects are
always truthy, `null`/`false`/`0`/`""` are falsy. -/
def JsVal.truthy : JsVal → Bool
  | .null => false
  | .bool b => b
  | .num n => n != 0
  | .str s => s != ""
  | .arr _ => true
  | .obj _ => true

/-- JS `Map.get`: first entry with the given key. -/
def mapGet {α : Type} (m : List (String × α)) (k : String) : Option α :=
  match m with
  | [] => none
  | (k', v) :: rest => if k' = k then some v else mapGet rest k

/-- JS `Map.set`: replace the entry in place if the key is present, else append. -/
def mapSet {α : Type} (m : List (String × α)) (k : String) (v : α) :
    List (String × α) :=
  match m with
  | [] => [(k, v)]
  | (k', v') :: rest =>
    if k' = k then (k, v) :: rest else (k', v') :: mapSet rest k v

/-- JS `Map.delete`: remove the (first) entry with the given key. -/
def mapDelete {α : Type} (m : List (String × α)) (k : String) :
    List (String × α) :=
  match m with
  | [] => []
  | (k', v') :: rest => if k' = k then rest else (k', v') :: mapDelete rest k

/-- Auxiliary for `String.includes`: is `pat` an infix of `s` (as char lists)? -/
def listIncludes (s pat : List Char) : Bool :=
  match s with
  | [] => pat.isEmpty
  | _ :: rest => pat.isPrefixOf s || listIncludes rest pat

/-- JavaScript `s.includes(pat)` (substring containment). -/
def strIncludes (s pat : String) : Bool :=
  listIncludes s.toList pat.toList

/-! ### ApiClient (`ApiClient` class): GET cache and HTTP verbs -/

/-- One entry of `ApiClient.cache`: `{ data, timestamp, ttl }` as stored by
`_setCache`. -/
structure CacheEntry : Type where
  data : JsVal
  timestamp : Int
  ttl : Int

/-- The mutable state of an `ApiClient` instance: its `cache` Map. -/
structure Client : Type where
  cache : List (String × CacheEntry)

/-- JS `ApiClient._getCacheKey(method, endpoint)`. -/
def getCacheKey (method endpoint : String) : String :=
  method ++ ":" ++ endpoint

/-- JS `ApiClient._getFromCache(key)` at time `now` (`Date.now()`): returns the
stored data when `now - timestamp < ttl`, otherwise deletes the entry and
returns `null` (modelled as `none`); also returns the possibly updated cache. -/
def getFromCache (c : Client) (key : String) (now : Int) :
    Option JsVal × Client :=
  match mapGet c.cache key with
  | none => (none, c)
  | some entry =>
    if now - entry.timestamp < entry.ttl then (some entry.data, c)
    else (none, ⟨mapDelete c.cache key⟩)

/-- JS `ApiClient._setCache(key, data, ttl)` at time `now`. -/
def setCache (c : Client) (key : String) (data : JsVal) (ttl now : Int) :
    Client :=
  ⟨mapSet c.cache key ⟨data, now, ttl⟩⟩

/-- JS `ApiClient.clearCache(pattern)`: with a pattern, delete every key that
`includes` the pattern; with no pattern, clear the whole cache. -/
def clearCache (c : Client) (pattern : Option String) : Client :=
  match pattern with
  | some p => ⟨c.cache.filter (fun kv => ! strIncludes kv.1 p)⟩
  | none => ⟨[]⟩

/-- A network request actually performed (`fetch` reaching the wire). -/
structure NetCall : Type where
  method : String
  endpoint : String

/-- Result of running one `ApiClient` call on the success path: the JSON
value returned to the caller, the client's cache afterwards, and the network
requests performed. -/
structure ApiResult : Type where
  data : JsVal
  client : Client
  netCalls : List NetCall

/-- The network path of `ApiClient.get`: perform the request and, when the
`cache` option is set, store the parsed response via `_setCache`. -/
def apiGetNetwork (net : String → String → JsVal) (c1 : Client)
    (endpoint cacheKey : String) (cacheOpt : Bool) (cacheTTL : Int)
    (now : Int) : ApiResult :=
  let data := net "GET" endpoint
  let c2 := if cacheOpt then setCache c1 cacheKey data cacheTTL now else c1
  { data := data, client := c2, netCalls := [⟨"GET", endpoint⟩] }

/-- JS `ApiClient.get(endpoint, {cache, cacheTTL})` at time `now`, against a
backend `net` mapping method and endpoint to the parsed JSON response
(success path).  Mirrors the source: with `cache` enabled it consults
`_getFromCache` and returns the cached value only when it is truthy
(`if (cached) return cached;`); otherwise it performs the request
(`apiGetNetwork`) and, with `cache` enabled, stores the parsed response via
`_setCache`. -/
def apiGet (net : String → String → JsVal) (c : Client) (endpoint : String)
    (cacheOpt : Bool) (cacheTTL : Int) (now : Int) : ApiResult :=
  let cacheKey := getCacheKey "GET" endpoint
  let looked := if cacheOpt then getFromCache c cacheKey now else (none, c)
  match looked.1 with
  | some v =>
    if v.truthy then { data := v, client := looked.2, netCalls := [] }
    else apiGetNetwork net looked.2 endpoint cacheKey cacheOpt cacheTTL now
  | none => apiGetNetwork net looked.2 endpoint cacheKey cacheOpt cacheTTL now

/-- JS `ApiClient.post(endpoint, body)` (success path): a plain `_request`;
never consults or updates the GET cache. -/
def apiPost (net : String → String → JsVal) (c : Client) (endpoint : String) :
    ApiResult :=
  { data := net "POST" endpoint, client := c, netCalls := [⟨"POST", endpoint⟩] }

/-- JS `ApiClient.put(endpoint, body)` (success path). -/
def apiPut (net : String → String → JsVal) (c : Client) (endpoint : String) :
    ApiResult :=
  { data := net "PUT" endpoint, client := c, netCalls := [⟨"PUT", endpoint⟩] }

/-- JS `ApiClient.delete(endpoint)` (success path). -/
def apiDelete (net : String → String → JsVal) (c : Client)
    (endpoint : String) : ApiResult :=
  { data := net "DELETE" endpoint, client := c,
    netCalls := [⟨"DELETE", endpoint⟩] }

/-! ### `ApiClient._request`: retry loop with exponential backoff -/

/-- Outcome of a full `_request` run: how many times `fetch` was invoked, the
waits performed between attempts (in order), and the value returned or the
error finally thrown. -/
structure ReqOutcome : Type where
  attempts : Nat
  delays : List Nat
  result : Except String JsVal

/-- The retry loop of `ApiClient._request` starting at iteration `attempt`:
`for (let attempt = 0; attempt <= retries; attempt++) { try { ...return
json } catch { lastError = e; if (attempt < retries) await delay(retryDelay *
2**attempt) } } throw lastError`.  `fetch i` is the outcome of the `try` body
on the `i`-th invocation (parsed JSON, or the thrown error). -/
def requestFrom (fetch : Nat → Except String JsVal)
    (retries retryDelay attempt : Nat) : ReqOutcome :=
  match fetch attempt with
  | .ok v => ⟨1, [], .ok v⟩
  | .error e =>
    if h : attempt < retries then
      let r := requestFrom fetch retries retryDelay (attempt + 1)
      ⟨r.attempts + 1, retryDelay * 2 ^ attempt :: r.delays, r.result⟩
    else ⟨1, [], .error e⟩
termination_by retries - attempt
decreasing_by omega

/-- JS `ApiClient._request` with retry options `retries` and `retryDelay`
(defaults `0` and `1000` at the call sites). -/
def apiRequest (fetch : Nat → Except String JsVal)
    (retries retryDelay : Nat) : ReqOutcome :=
  requestFrom fetch retries retryDelay 0

/-! ### Endpoint registry (`endpoints`) and services -/

/-- JS `endpoints.drops.list(limit)`. -/
def dropsListEndpoint (limit : Nat) : String :=
  "/api/drops?limit=" ++ toString limit

/-- JS `endpoints.drops.delete(id)`. -/
def dropsDeleteEndpoint (id : String) : String := "/api/drops/" ++ id

/-- JS `endpoints.stock.changes(limit)`. -/
def stockChangesEndpoint (limit : Nat) : String :=
  "/api/stock/changes?limit=" ++ toString limit

/-- JS `endpoints.stock.deleteChange(id)`. -/
def stockDeleteChangeEndpoint (id : String) : String :=
  "/api/stock/changes/" ++ id

/-- JS `endpoints.stock.fragrances({})`: no parameters, so no query string. -/
def fragrancesEndpoint : String := "/api/stock/fragrances"

/-- JS `endpoints.watchlist.add(slug)`. -/
def watchlistAddEndpoint (slug : String) : String :=
  "/api/stock/watchlist/add/" ++ slug

/-- JS `endpoints.watchlist.remove(slug)`. -/
def watchlistRemoveEndpoint (slug : String) : String :=
  "/api/stock/watchlist/remove/" ++ slug

/-- JS `endpoints.watchlist.bulkAdd()` and `bulkRemove()`. -/
def watchlistBulkEndpoint : String := "/api/watchlist/bulk"

/-- JS `endpoints.config.get()`. -/
def configGetEndpoint : String := "/api/config"

/-- The seven `endpoints.config.*` save targets used by `ConfigService`
(reddit, notifications, detection, drop-window, stock-monitoring,
stock-schedule, logging). -/
def configSaveEndpoints : List String :=
  ["/api/config/reddit", "/api/config/notifications", "/api/config/detection",
   "/api/config/drop-window", "/api/config/stock-monitoring",
   "/api/config/stock-schedule", "/api/config/logging"]

/-- JS `WatchlistService.addItem(slug)` (success path): POST then
`apiClient.clearCache('/api/stock/fragrances')` before returning. -/
def watchlistAddItem (net : String → String → JsVal) (c : Client)
    (slug : String) : ApiResult :=
  let r := apiPost net c (watchlistAddEndpoint slug)
  { r with client := clearCache r.client (some "/api/stock/fragrances") }

/-- JS `WatchlistService.removeItem(slug)` (success path). -/
def watchlistRemoveItem (net : String → String → JsVal) (c : Client)
    (slug : String) : ApiResult :=
  let r := apiPost net c (watchlistRemoveEndpoint slug)
  { r with client := clearCache r.client (some "/api/stock/fragrances") }

/-- JS `WatchlistService.bulkAdd(slugs)` (success path). -/
def watchlistBulkAdd (net : String → String → JsVal) (c : Client) :
    ApiResult :=
  let r := apiPost net c watchlistBulkEndpoint
  { r with client := clearCache r.client (some "/api/stock/fragrances") }

/-- JS `WatchlistService.bulkRemove(slugs)` (success path): a DELETE with body. -/
def watchlistBulkRemove (net : String → String → JsVal) (c : Client) :
    ApiResult :=
  let r := apiDelete net c watchlistBulkEndpoint
  { r with client := clearCache r.client (some "/api/stock/fragrances") }

/-- Any of the seven `ConfigService.save*Config` methods (success path):
POST to the given config endpoint then `clearCache('/api/config')`. -/
def configSave (net : String → String → JsVal) (c : Client)
    (endpoint : String) : ApiResult :=
  let r := apiPost net c endpoint
  { r with client := clearCache r.client (some "/api/config") }

/-- JS `DropsService.deleteDrop(dropId)` (success path): a plain DELETE, with no
cache invalidation. -/
def dropsDeleteDrop (net : String → String → JsVal) (c : Client)
    (id : String) : ApiResult :=
  apiDelete net c (dropsDeleteEndpoint id)

/-- JS `StockService.deleteChange(changeId)` (success path): a plain DELETE,
with no cache invalidation. -/
def stockDeleteChange (net : String → String → JsVal) (c : Client)
    (id : String) : ApiResult :=
  apiDelete net c (stockDeleteChangeEndpoint id)

/-- JS `DropsService.getRecentDrops(limit)` at time `now`: a cached GET with the
client defaults (`cache: true`, TTL 30000). -/
def dropsGetRecentDrops (net : String → String → JsVal) (c : Client)
    (limit : Nat) (now : Int) : ApiResult :=
  apiGet net c (dropsListEndpoint limit) true 30000 now

/-- JS `StockService.getRecentChanges(limit)` at time `now`. -/
def stockGetRecentChanges (net : String → String → JsVal) (c : Client)
    (limit : Nat) (now : Int) : ApiResult :=
  apiGet net c (stockChangesEndpoint limit) true 30000 now

/-- JS `StockService.getFragrances({})` at time `now`: no `search` parameter, so
`cache: true` with `cacheTTL: 60000`. -/
def stockGetFragrances (net : String → String → JsVal) (c : Client)
    (now : Int) : ApiResult :=
  apiGet net c fragrancesEndpoint true 60000 now

/-- JS `ConfigService.getConfig()` (no `forceFresh`) at time `now`. -/
def configGetConfig (net : String → String → JsVal) (c : Client)
    (now : Int) : ApiResult :=
  apiGet net c configGetEndpoint true 30000 now

/-! ### `CacheManager` (state module): TTL cache with absolute expiry -/

/-- One entry of `CacheManager.cache`: `{ value, expires }` with
`expires = Date.now() + ttl` at store time. -/
structure CMEntry : Type where
  value : JsVal
  expires : Int

/-- JS `CacheManager.get(key)` at time `now`: `null` (here `JsVal.null`) when
missing; when present, the entry is deleted and `null` returned if
`now > expires`, else the stored value is returned.  Also returns the
possibly updated cache. -/
def cmGet (m : List (String × CMEntry)) (key : String) (now : Int) :
    JsVal × List (String × CMEntry) :=
  match mapGet m key with
  | none => (JsVal.null, m)
  | some entry =>
    if now > entry.expires then (JsVal.null, mapDelete m key)
    else (entry.value, m)

/-- JS `CacheManager.set(key, value, ttl)` at time `now`: stores
`{ value, expires: Date.now() + ttl }`. -/
def cmSet (m : List (String × CMEntry)) (key : String) (value : JsVal)
    (ttl now : Int) : List (String × CMEntry) :=
  mapSet m key ⟨value, now + ttl⟩

/-- JS `CacheManager.has(key)` at time `now`: `this.get(key) !== null`. -/
def cmHas (m : List (String × CMEntry)) (key : String) (now : Int) : Bool :=
  (cmGet m key now).1 matches JsVal.null |> not

/-! ### `DateUtils.parseTimestamp` (static/js/utils/date.js) -/

/-- The input shapes `parseTimestamp` distinguishes: a `Date` object
(carrying its epoch milliseconds), a number, a string, or `null`/`undefined`. -/
inductive TsInput : Type where
  | date : Int → TsInput
  | num : Int → TsInput
  | str : String → TsInput
  | nullv : TsInput

/-- JS `DateUtils.parseTimestamp(value)`, returning the epoch milliseconds of
the resulting `Date`, or `none` for `null`.  `strParse` stands for the
JavaScript `new Date(string)` parser (environment-dependent).  Mirrors the
source: falsy input (`null`, `undefined`, `0`, `""`) returns `null`; a
`Date` passes through; a number below `10000000000` is seconds and is
multiplied by 1000, otherwise it is milliseconds already; a string goes
through date parsing with `NaN` mapped to `null`. -/
def parseTimestamp (strParse : String → Option Int) : TsInput → Option Int
  | .nullv => none
  | .date ms => some ms
  | .num n =>
    if n = 0 then none
    else if n < 10000000000 then some (n * 1000)
    else some n
  | .str s => if s = "" then none else strParse s

/-- JS `parseTimestamp` on the numeric path only (the string parser is
irrelevant there). -/
def parseTimestampNum (n : Int) : Option Int :=
  parseTimestamp (fun _ => none) (TsInput.num n)

/-! ### `StateStore`: reactive state with persistence allow-list -/

/-- The fixed slots of `StateStore.state`. -/
inductive StoreKey : Type where
  | status | drops | stockChanges | fragrances | watchlist | config
  | lastUpdate
deriving DecidableEq

/-- The constructor defaults of `StateStore.state`. -/
def initialState : StoreKey → JsVal
  | .status => JsVal.null
  | .drops => JsVal.arr []
  | .stockChanges => JsVal.arr []
  | .fragrances => JsVal.obj []
  | .watchlist => JsVal.arr []
  | .config => JsVal.null
  | .lastUpdate => JsVal.null

/-- The blob `saveToStorage` persists: only the `watchlist` and `lastUpdate`
slots (the allow-list). -/
structure PersistedBlob : Type where
  watchlist : JsVal
  lastUpdate : JsVal

/-- JS `StateStore.saveToStorage()`: serialize the allow-listed subset of the
current state. -/
def saveToStorage (s : StoreKey → JsVal) : PersistedBlob :=
  ⟨s StoreKey.watchlist, s StoreKey.lastUpdate⟩

/-- JS `StateStore.loadFromStorage()` over a fresh store (a simulated reload):
constructor defaults, then `Object.assign(this.state, parsed)` with the
persisted `{watchlist, lastUpdate}` blob. -/
def loadFromStorage (b : PersistedBlob) : StoreKey → JsVal :=
  fun k => match k with
    | .watchlist => b.watchlist
    | .lastUpdate => b.lastUpdate
    | k' => initialState k'

/-- The state mutation of `StateStore.set(key, value)` at time `now`:
`this.state[key] = value; this.state.lastUpdate = Date.now()` (the
`lastUpdate` stamp wins even when `key` is `lastUpdate` itself). -/
def storeSet (s : StoreKey → JsVal) (k : StoreKey) (v : JsVal) (now : Int) :
    StoreKey → JsVal :=
  fun k' =>
    if k' = StoreKey.lastUpdate then JsVal.num now
    else if k' = k then v else s k'

/-- Run a sequence of `set(key, value)` calls (each with its `Date.now()`)
against a store state. -/
def runSets (s : StoreKey → JsVal) :
    List (StoreKey × JsVal × Int) → StoreKey → JsVal
  | [] => s
  | (k, v, t) :: rest => runSets (storeSet s k v t) rest

/-! ### `StateStore.notify`: exception-isolated subscriber notification -/

/-- A subscribed callback, abstracted to an identifier plus whether invoking
it throws synchronously. -/
structure Listener : Type where
  id : Nat
  throws : Bool

/-- Invoking a callback: either it returns, or it throws an exception
(carrying the callback's id). -/
def invokeCallback (l : Listener) : Except Nat Unit :=
  if l.throws then Except.error l.id else Except.ok ()

/-- What `notify` records: which callbacks were invoked (in order) and which
exceptions were caught and logged via `console.error`. -/
structure NotifyLog : Type where
  invoked : List Nat
  loggedErrors : List Nat

/-- One iteration of the `forEach` body in `StateStore.notify`:
`try { callback(...) } catch (error) { console.error(...) }` — the callback
is invoked either way; a thrown exception is caught and logged, and the
iteration continues. -/
def notifyStep (log : NotifyLog) (l : Listener) : NotifyLog :=
  match invokeCallback l with
  | Except.ok _ => { log with invoked := log.invoked ++ [l.id] }
  | Except.error e =>
    { invoked := log.invoked ++ [l.id]
      loggedErrors := log.loggedErrors ++ [e] }

/-- JS `StateStore.notify(key, ...)`: iterate the key-specific listeners, then
the wildcard (`'*'`) listeners, each under its own try/catch. -/
def notifyRun (keyListeners wildcardListeners : List Listener) : NotifyLog :=
  (keyListeners ++ wildcardListeners).foldl notifyStep ⟨[], []⟩

/-- JS `StateStore.set(key, value)` at time `now` with the store's listener
table (`some k` for key `k`, `none` for `'*'`): updates the state, saves the
allow-listed blob, and notifies. -/
def storeSetNotify (s : StoreKey → JsVal)
    (listeners : Option StoreKey → List Listener) (k : StoreKey) (v : JsVal)
    (now : Int) : (StoreKey → JsVal) × PersistedBlob × NotifyLog :=
  let s' := storeSet s k v now
  (s', saveToStorage s', notifyRun (listeners (some k)) (listeners none))

/-! ### `Router` (static/js/router.js) -/

/-- JS `this.pages` in the `Router` constructor. -/
def routerPages : List String := ["dashboard", "inventory", "configuration"]

/-- Browser-visible router state: the router's `currentPage`, the history
entries' `pushState` payloads (`none` for the initial entry, which has no
state), and the index of the current entry. -/
structure RouterState : Type where
  currentPage : String
  entries : List (Option String)
  idx : Nat

/-- Router state right after construction: `currentPage = 'dashboard'`, one
history entry (the page load) with `null` state. -/
def initialRouterState : RouterState :=
  ⟨"dashboard", [Option.none], 0⟩

/-- JS `e.state?.page || 'dashboard'` in the `popstate` handler: a missing
state or a falsy page string falls back to `'dashboard'`. -/
def pageOfHistoryState : Option String → String
  | none => "dashboard"
  | some p => if p = "" then "dashboard" else p

/-- The `currentPage` update performed by `Router.showPage(page)`: early
return when already on the page, else switch. -/
def showPageNext (current page : String) : String :=
  if current = page then current else page

/-- External stimuli driving the router: a `navigateTo` call (also what a
navigation-item click performs), browser back/forward (firing `popstate`),
and `handleInitialRoute` with the URL fragment (without `#`). -/
inductive RouterEvent : Type where
  | navigate : String → RouterEvent
  | back : RouterEvent
  | forward : RouterEvent
  | initialRoute : String → RouterEvent

/-- One router transition.  `navigate p` rejects pages outside
`this.pages` (logged, no state change); otherwise it pushes a history entry
`{page: p}` (discarding any forward entries) and shows the page.  `back` and
`forward` move the history index when possible and run the `popstate`
handler on the new entry's state.  `initialRoute h` resolves
`hash || 'dashboard'` against the page set, defaulting to `'dashboard'`,
and shows the result (no history push). -/
def routerStep (s : RouterState) : RouterEvent → RouterState
  | RouterEvent.navigate p =>
    if routerPages.contains p then
      { currentPage := showPageNext s.currentPage p
        entries := s.entries.take (s.idx + 1) ++ [some p]
        idx := s.idx + 1 }
    else s
  | RouterEvent.back =>
    if s.idx = 0 then s
    else
      let i := s.idx - 1
      let page := pageOfHistoryState ((s.entries.get? i).getD Option.none)
      { s with idx := i, currentPage := showPageNext s.currentPage page }
  | RouterEvent.forward =>
    if s.idx + 1 < s.entries.length then
      let i := s.idx + 1
      let page := pageOfHistoryState ((s.entries.get? i).getD Option.none)
      { s with idx := i, currentPage := showPageNext s.currentPage page }
    else s
  | RouterEvent.initialRoute h =>
    let h' := if h = "" then "dashboard" else h
    let page := if routerPages.contains h' then h' else "dashboard"
    { s with currentPage := showPageNext s.currentPage page }

/-- Run a sequence of router events from a state. -/
def routerRun (s : RouterState) : List RouterEvent → RouterState
  | [] => s
  | e :: rest => routerRun (routerStep s e) rest

/-! ### `Router.showPage` lifecycle hook ordering -/

/-- A lifecycle hook invocation recorded by `showPage`. -/
inductive HookEvent : Type where
  | leave : String → HookEvent
  | enter : String → HookEvent

/-- JS `Router.showPage(page)` with the hook environment: `leaveReg p` /
`enterReg p` say whether a leave/enter hook is registered for page `p`
(in the source: whether `cleanup*` / `initialize*` resolve to functions).
Returns the new `currentPage` and the ordered log of hook calls; the source
calls `this.onPageLeave(previousPage)` and then `this.onPageEnter(page)`. -/
def showPage (leaveReg enterReg : String → Bool) (current page : String) :
    String × List HookEvent :=
  if current = page then (current, [])
  else
    let afterLeave : List HookEvent :=
      if leaveReg current then [HookEvent.leave current] else []
    let afterEnter : List HookEvent :=
      if enterReg page then afterLeave ++ [HookEvent.enter page]
      else afterLeave
    (page, afterEnter)

/-! ### Helper lemmas about the association-list Map operations -/

theorem mapGet_mapSet_self {α : Type} (m : List (String × α)) (k : String)
    (v : α) : mapGet (mapSet m k v) k = some v := by
  induction m with
  | nil => simp [mapSet, mapGet]
  | cons kv rest ih =>
    obtain ⟨k', v'⟩ := kv
    by_cases h : k' = k
    · simp [mapSet, mapGet, h]
    · simp [mapSet, mapGet, h, ih]

theorem mapGet_filter_pattern {α : Type} (m : List (String × α))
    (p k : String) (h : strIncludes k p = true) :
    mapGet (m.filter (fun kv => ! strIncludes kv.1 p)) k = none := by
  induction m with
  | nil => rfl
  | cons kv rest ih =>
    obtain ⟨k', v'⟩ := kv
    by_cases hf : strIncludes k' p
    · simp [List.filter_cons, hf, ih]
    · simp only [List.filter_cons]
      rw [if_pos (by simp [hf])]
      by_cases hk : k' = k
      · exact absurd h (by rw [← hk]; simp [hf])
      · simp [mapGet, hk, ih]

/-! ### Claim C4: CacheManager TTL semantics -/

/-- C4 counterexample: an entry stored at time 0 with ttl 100 is still
returned by `get` at time 100, although `now - storedAt < ttl` fails there;
the claim says that at the instant `now - storedAt = ttl` the entry is no
longer valid, but the code checks `now > expires` with
`expires = storedAt + ttl`, so the entry is still served. -/
theorem cmGet_boundary_counterexample :
    ¬ ((100 : Int) - 0 < 100) ∧
      (cmGet (cmSet [] "k" (JsVal.bool true) 100 0) "k" 100).1
        = JsVal.bool true := by
  exact ⟨by decide, rfl⟩

/-- C4 (amended): an entry stored by `set(k, v, ttl)` at time `storedAt` is
valid exactly when `now - storedAt ≤ ttl` (so at the instant
`now - storedAt = ttl` it is still valid); when expired
(`now - storedAt > ttl`), `get` deletes the entry and returns `null`; and
`has(k)` holds exactly when `get(k)` would return a non-null value. -/
theorem cmGet_ttl_semantics :
    ∀ (m : List (String × CMEntry)) (k : String) (v : JsVal) (ttl t now : Int),
      (now - t ≤ ttl →
        cmGet (cmSet m k v ttl t) k now = (v, cmSet m k v ttl t)) ∧
      (now - t > ttl →
        cmGet (cmSet m k v ttl t) k now
          = (JsVal.null, mapDelete (cmSet m k v ttl t) k)) ∧
      (cmHas m k now = true ↔ (cmGet m k now).1 ≠ JsVal.null) := by
  intro m k v ttl t now
  refine ⟨?_, ?_, ?_⟩
  · intro h
    unfold cmGet cmSet
    rw [mapGet_mapSet_self]
    simp only
    rw [if_neg (by omega)]
  · intro h
    unfold cmGet cmSet
    rw [mapGet_mapSet_self]
    simp only
    rw [if_pos (by omega)]
  · unfold cmHas
    cases hg : (cmGet m k now).1 <;> simp

/-- Witness for C4: with an entry stored at time 0 and ttl 100, `get` at
time 100 still returns the value, `get` at time 101 evicts and returns
`null`, and `has` agrees with `get`. -/
theorem cmGet_ttl_semantics_witness :
    cmGet (cmSet [] "k" (JsVal.bool true) 100 0) "k" 100
        = (JsVal.bool true, cmSet [] "k" (JsVal.bool true) 100 0) ∧
      cmGet (cmSet [] "k" (JsVal.bool true) 100 0) "k" 101
        = (JsVal.null, mapDelete (cmSet [] "k" (JsVal.bool true) 100 0) "k") := by
  exact ⟨(cmGet_ttl_semantics [] "k" (JsVal.bool true) 100 0 100).1 (by omega),
    (cmGet_ttl_semantics [] "k" (JsVal.bool true) 100 0 101).2.1 (by omega)⟩

/-! ### Claim C5: seconds-vs-milliseconds heuristic of `parseTimestamp` -/

/-- C5 counterexample: `n = 1` is below `10,000,000,000`, and `parse(1)`
denotes the instant 1000 ms, but `parse(1 * 1000) = parse(1000)` denotes
1,000,000 ms (1000 is itself below the threshold and is multiplied by 1000
again), so the claimed reversibility `parse(n) = parse(n * 1000)` fails. -/
theorem parseTimestamp_roundtrip_counterexample :
    (1 : Int) < 10000000000 ∧
      parseTimestampNum 1 = some 1000 ∧
      parseTimestampNum (1 * 1000) = some 1000000 ∧
      parseTimestampNum 1 ≠ parseTimestampNum (1 * 1000) := by
  refine ⟨by decide, rfl, rfl, by decide⟩

/-- C5 (amended): a nonzero number below `10,000,000,000` is interpreted as
seconds (`parse(n)` denotes the instant `n * 1000` ms); the round-trip
`parse(n) = parse(n * 1000)` holds exactly on the range
`10,000,000 ≤ n < 10,000,000,000` (below `10,000,000` the scaled value is
again below the threshold and gets multiplied once more); numbers at or
above `10,000,000,000` are taken as milliseconds; and `parse(0)` is `null`
(the falsy-input guard). -/
theorem parseTimestamp_heuristic :
    (∀ n : Int, n ≠ 0 → n < 10000000000 →
      parseTimestampNum n = some (n * 1000) ∧
      (10000000 ≤ n → parseTimestampNum (n * 1000) = parseTimestampNum n) ∧
      (0 < n → n < 10000000 →
        parseTimestampNum (n * 1000) = some (n * 1000000))) ∧
    (∀ n : Int, 10000000000 ≤ n → parseTimestampNum n = some n) ∧
    parseTimestampNum 0 = none := by
  refine ⟨?_, ?_, rfl⟩
  · intro n hn hlt
    refine ⟨?_, ?_, ?_⟩
    · simp only [parseTimestampNum, parseTimestamp]
      rw [if_neg hn, if_pos hlt]
    · intro hge
      simp only [parseTimestampNum, parseTimestamp]
      rw [if_neg hn, if_pos hlt, if_neg (by omega), if_neg (by omega)]
    · intro hpos hsmall
      simp only [parseTimestampNum, parseTimestamp]
      rw [if_neg (by omega), if_pos (by omega)]
      congr 1
      ring
  · intro n hge
    simp only [parseTimestampNum, parseTimestamp]
    rw [if_neg (by omega), if_neg (by omega)]

/-- Witness for C5: `parse(20,000,000) = some 20,000,000,000` and the
round-trip holds there; `parse(3) = some 3000` with
`parse(3000) = some 3,000,000`; and `parse(10,000,000,005)` is taken as
milliseconds. -/
theorem parseTimestamp_heuristic_witness :
    (parseTimestampNum 20000000 = some 20000000000 ∧
      parseTimestampNum (20000000 * 1000) = parseTimestampNum 20000000) ∧
    (parseTimestampNum 3 = some 3000 ∧
      parseTimestampNum (3 * 1000) = some 3000000) ∧
    parseTimestampNum 10000000005 = some 10000000005 := by
  refine ⟨⟨?_, ?_⟩, ⟨?_, ?_⟩, ?_⟩
  · exact (parseTimestamp_heuristic.1 20000000 (by decide) (by decide)).1
  · exact (parseTimestamp_heuristic.1 20000000 (by decide) (by decide)).2.1
      (by decide)
  · exact (parseTimestamp_heuristic.1 3 (by decide) (by decide)).1
  · exact (parseTimestamp_heuristic.1 3 (by decide) (by decide)).2.2
      (by decide) (by decide)
  · exact parseTimestamp_heuristic.2.1 10000000005 (by decide)

/-! ### Claim C6: exception isolation in `StateStore.notify` -/

theorem notify_foldl_spec (ls : List Listener) (log : NotifyLog) :
    (ls.foldl notifyStep log).invoked = log.invoked ++ ls.map Listener.id ∧
      (ls.foldl notifyStep log).loggedErrors
        = log.loggedErrors ++ (ls.filter Listener.throws).map Listener.id := by
  induction ls generalizing log with
  | nil => simp
  | cons l rest ih =>
    have hstep : notifyStep log l
        = ⟨log.invoked ++ [l.id],
           if l.throws then log.loggedErrors ++ [l.id]
           else log.loggedErrors⟩ := by
      unfold notifyStep invokeCallback
      cases h : l.throws <;> simp [h]
    rw [List.foldl_cons, hstep]
    rcases ih ⟨log.invoked ++ [l.id],
      if l.throws then log.loggedErrors ++ [l.id] else log.loggedErrors⟩
      with ⟨h1, h2⟩
    refine ⟨by simp [h1], ?_⟩
    rw [h2]
    cases h : l.throws <;> simp [List.filter_cons, h]

/-- C6: on every `set(key, value)`, every key-specific subscriber and every
wildcard subscriber is invoked, in subscription order, regardless of which
of them throw; each throwing subscriber's exception is caught and logged
rather than aborting the iteration.  In particular, with two callbacks on
the same key where the first throws, the second is still invoked. -/
theorem notify_exception_isolation :
    ∀ (s : StoreKey → JsVal) (listeners : Option StoreKey → List Listener)
      (k : StoreKey) (v : JsVal) (now : Int),
      (storeSetNotify s listeners k v now).2.2.invoked
          = (listeners (some k) ++ listeners none).map Listener.id ∧
        (storeSetNotify s listeners k v now).2.2.loggedErrors
          = ((listeners (some k) ++ listeners none).filter
              Listener.throws).map Listener.id := by
  intro s listeners k v now
  have h := notify_foldl_spec (listeners (some k) ++ listeners none) ⟨[], []⟩
  unfold storeSetNotify notifyRun
  exact ⟨by simpa using h.1, by simpa using h.2⟩

/-! ### Claim C7: persistence allow-list of the `StateStore` -/

/-- Two runs of `set` calls agree on everything except possibly the values
written to non-allow-listed slots: same keys, same times, and equal values
whenever the slot is `watchlist` or `lastUpdate`. -/
def opsAgree : List (StoreKey × JsVal × Int) → List (StoreKey × JsVal × Int)
    → Prop
  | [], [] => True
  | a :: as, b :: bs =>
    a.1 = b.1 ∧ a.2.2 = b.2.2 ∧
      ((a.1 = StoreKey.watchlist ∨ a.1 = StoreKey.lastUpdate) →
        a.2.1 = b.2.1) ∧
      opsAgree as bs
  | _, _ => False

theorem runSets_allowlist_agree :
    ∀ (ops1 ops2 : List (StoreKey × JsVal × Int)) (s1 s2 : StoreKey → JsVal),
      opsAgree ops1 ops2 →
      s1 StoreKey.watchlist = s2 StoreKey.watchlist →
      s1 StoreKey.lastUpdate = s2 StoreKey.lastUpdate →
      runSets s1 ops1 StoreKey.watchlist = runSets s2 ops2 StoreKey.watchlist
        ∧ runSets s1 ops1 StoreKey.lastUpdate
          = runSets s2 ops2 StoreKey.lastUpdate := by
  intro ops1
  induction ops1 with
  | nil =>
    intro ops2 s1 s2 hagree hw hl
    cases ops2 with
    | nil => exact ⟨hw, hl⟩
    | cons b bs => exact absurd hagree (by simp [opsAgree])
  | cons a as ih =>
    intro ops2 s1 s2 hagree hw hl
    cases ops2 with
    | nil => exact absurd hagree (by simp [opsAgree])
    | cons b bs =>
      obtain ⟨hk, ht, hv, hrest⟩ := hagree
      refine ih bs (storeSet s1 a.1 a.2.1 a.2.2) (storeSet s2 b.1 b.2.1 b.2.2)
        hrest ?_ ?_
      · unfold storeSet
        rw [← hk]
        have hne : StoreKey.watchlist ≠ StoreKey.lastUpdate := by decide
        by_cases hak : StoreKey.watchlist = a.1
        · rw [if_neg hne, if_neg hne, if_pos hak, if_pos hak]
          exact hv (Or.inl hak.symm)
        · rw [if_neg hne, if_neg hne, if_neg hak, if_neg hak]
          exact hw
      · unfold storeSet
        rw [← ht]
        simp

/-- C7: the persisted blob contains exactly the allow-listed slots
`watchlist` and `lastUpdate`: two runs of `set` calls that differ only in
the values written to non-allow-listed slots persist identical blobs; and
after a simulated reload, `status` comes back as its constructor default
while `watchlist` comes back as the previously set value. -/
theorem persistence_allowlist :
    (∀ (ops1 ops2 : List (StoreKey × JsVal × Int)) (s : StoreKey → JsVal),
      opsAgree ops1 ops2 →
      saveToStorage (runSets s ops1) = saveToStorage (runSets s ops2)) ∧
    (∀ (s : StoreKey → JsVal) (x : JsVal) (t : Int),
      loadFromStorage (saveToStorage (storeSet s StoreKey.status x t))
          StoreKey.status = initialState StoreKey.status) ∧
    (∀ (s : StoreKey → JsVal) (w : JsVal) (t : Int),
      loadFromStorage (saveToStorage (storeSet s StoreKey.watchlist w t))
          StoreKey.watchlist = w) := by
  refine ⟨?_, ?_, ?_⟩
  · intro ops1 ops2 s hagree
    obtain ⟨hw, hl⟩ := runSets_allowlist_agree ops1 ops2 s s hagree rfl rfl
    unfold saveToStorage
    rw [hw, hl]
  · intro s x t
    rfl
  · intro s w t
    rfl

/-- Witness for C7: two concrete runs that differ only in the value written
to `status` persist the same blob; a reload after `set("status", ...)`
yields the default `null`, and after `set("watchlist", ...)` yields the set
value. -/
theorem persistence_allowlist_witness :
    saveToStorage (runSets initialState
        [(StoreKey.status, JsVal.num 1, 5),
         (StoreKey.watchlist, JsVal.arr [], 6)])
      = saveToStorage (runSets initialState
        [(StoreKey.status, JsVal.num 2, 5),
         (StoreKey.watchlist, JsVal.arr [], 6)]) ∧
    loadFromStorage
        (saveToStorage (storeSet initialState StoreKey.status (JsVal.num 1) 5))
        StoreKey.status = initialState StoreKey.status ∧
    loadFromStorage
        (saveToStorage
          (storeSet initialState StoreKey.watchlist (JsVal.num 3) 5))
        StoreKey.watchlist = JsVal.num 3 := by
  refine ⟨persistence_allowlist.1 _ _ initialState ?_,
    persistence_allowlist.2.1 initialState (JsVal.num 1) 5,
    persistence_allowlist.2.2 initialState (JsVal.num 3) 5⟩
  simp [opsAgree]

/-! ### Claim C9: leave-hook before enter-hook in `showPage` -/

/-- C9: in every transition from page `A` to a different page `B`, when both
a leave hook for `A` and an enter hook for `B` are registered, the call log
of `showPage` is exactly the leave call followed by the enter call — the
leave invocation strictly precedes the enter invocation. -/
theorem showPage_leave_before_enter :
    ∀ (lr er : String → Bool) (A B : String),
      A ≠ B → lr A = true → er B = true →
      showPage lr er A B = (B, [HookEvent.leave A, HookEvent.enter B]) := by
  intro lr er A B hne hlr her
  unfold showPage
  rw [if_neg hne]
  simp [hlr, her]

/-- Witness for C9: navigating from `dashboard` to `inventory` with both
hooks registered logs the leave call strictly before the enter call. -/
theorem showPage_leave_before_enter_witness :
    showPage (fun _ => true) (fun _ => true) "dashboard" "inventory"
      = ("inventory",
         [HookEvent.leave "dashboard", HookEvent.enter "inventory"]) := by
  exact showPage_leave_before_enter (fun _ => true) (fun _ => true)
    "dashboard" "inventory" (by decide) rfl rfl

/-! ### Claim C8: the active route stays in the fixed page set -/

/-- The router invariant: the current page is a member of `this.pages`, and
every `pushState` payload in the history records a member of `this.pages`. -/
def RouterInv (s : RouterState) : Prop :=
  s.currentPage ∈ routerPages ∧
    ∀ o ∈ s.entries, ∀ p, o = some p → p ∈ routerPages

theorem showPageNext_mem {cur page : String} (hc : cur ∈ routerPages)
    (hp : page ∈ routerPages) : showPageNext cur page ∈ routerPages := by
  unfold showPageNext
  by_cases h : cur = page
  · rw [if_pos h]; exact hc
  · rw [if_neg h]; exact hp

theorem pageOfHistoryState_mem (s : RouterState) (hinv : RouterInv s)
    (i : Nat) :
    pageOfHistoryState ((s.entries.get? i).getD Option.none) ∈ routerPages := by
  cases hg : s.entries.get? i with
  | none => simp [pageOfHistoryState, routerPages]
  | some o =>
    cases o with
    | none => simp [pageOfHistoryState, routerPages]
    | some p =>
      have hp : p ∈ routerPages :=
        hinv.2 (some p) (List.get?_mem hg) p rfl
      simp only [Option.getD, pageOfHistoryState]
      by_cases he : p = ""
      · rw [if_pos he]; simp [routerPages]
      · rw [if_neg he]; exact hp

theorem mem_of_contains {l : List String} {a : String}
    (h : l.contains a = true) : a ∈ l := by
  rw [List.contains_iff_exists_mem_beq] at h
  obtain ⟨b, hb, hab⟩ := h
  rwa [eq_of_beq hab]

theorem routerStep_inv (s : RouterState) (e : RouterEvent)
    (hinv : RouterInv s) : RouterInv (routerStep s e) := by
  cases e with
  | navigate p =>
    simp only [routerStep]
    by_cases hc : routerPages.contains p = true
    · rw [if_pos hc]
      have hp : p ∈ routerPages := mem_of_contains hc
      refine ⟨showPageNext_mem hinv.1 hp, ?_⟩
      intro o ho q hq
      rcases List.mem_append.mp ho with h | h
      · exact hinv.2 o (List.mem_of_mem_take h) q hq
      · rw [show o = some p by simpa using h] at hq
        rwa [← Option.some_inj.mp hq]
    · rw [if_neg hc]; exact hinv
  | back =>
    simp only [routerStep]
    by_cases h0 : s.idx = 0
    · rw [if_pos h0]; exact hinv
    · rw [if_neg h0]
      exact ⟨showPageNext_mem hinv.1 (pageOfHistoryState_mem s hinv _), hinv.2⟩
  | forward =>
    simp only [routerStep]
    by_cases h0 : s.idx + 1 < s.entries.length
    · rw [if_pos h0]
      exact ⟨showPageNext_mem hinv.1 (pageOfHistoryState_mem s hinv _), hinv.2⟩
    · rw [if_neg h0]; exact hinv
  | initialRoute h =>
    simp only [routerStep]
    refine ⟨showPageNext_mem hinv.1 ?_, hinv.2⟩
    by_cases hc :
        routerPages.contains (if h = "" then "dashboard" else h) = true
    · rw [if_pos hc]
      exact mem_of_contains hc
    · rw [if_neg hc]; simp [routerPages]

theorem routerRun_inv (evs : List RouterEvent) (s : RouterState)
    (hinv : RouterInv s) : RouterInv (routerRun s evs) := by
  induction evs generalizing s with
  | nil => exact hinv
  | cons e rest ih =>
    exact ih (routerStep s e) (routerStep_inv s e hinv)

/-- C8: `navigateTo` with a page outside the fixed set
`{dashboard, inventory, configuration}` performs no state change at all
(same current page, no history entry pushed, nothing thrown); and after any
sequence of navigations, back/forward restorations and initial-route
resolutions from the freshly constructed router, the current page is a
member of the fixed set. -/
theorem router_page_set_invariant :
    (∀ (s : RouterState) (p : String), routerPages.contains p = false →
      routerStep s (RouterEvent.navigate p) = s) ∧
    (∀ evs : List RouterEvent,
      (routerRun initialRouterState evs).currentPage ∈ routerPages) := by
  refine ⟨?_, ?_⟩
  · intro s p h
    simp only [routerStep]
    rw [if_neg (by rw [h]; exact Bool.false_ne_true)]
  · intro evs
    refine (routerRun_inv evs initialRouterState ⟨?_, ?_⟩).1
    · simp [initialRouterState, routerPages]
    · intro o ho q hq
      rw [show o = Option.none by simpa [initialRouterState] using ho] at hq
      cases hq

/-- Witness for C8: `navigateTo("nonexistent-page")` leaves the freshly
constructed router unchanged, and a concrete event sequence (initial route,
two navigations, one back) ends on a page in the fixed set. -/
theorem router_page_set_invariant_witness :
    routerStep initialRouterState (RouterEvent.navigate "nonexistent-page")
        = initialRouterState ∧
      (routerRun initialRouterState
          [RouterEvent.initialRoute "inventory",
           RouterEvent.navigate "configuration",
           RouterEvent.navigate "nope",
           RouterEvent.back]).currentPage ∈ routerPages := by
  exact ⟨router_page_set_invariant.1 initialRouterState "nonexistent-page"
      (by decide),
    router_page_set_invariant.2 _⟩

/-! ### Claim C2: retry policy of `ApiClient._request` -/

theorem requestFrom_attempts_pos (f : Nat → Except String JsVal)
    (r d a : Nat) : 1 ≤ (requestFrom f r d a).attempts := by
  rw [requestFrom]
  split
  · simp
  · split
    · dsimp only
      omega
    · simp

theorem requestFrom_attempts_le (f : Nat → Except String JsVal) (r d : Nat) :
    ∀ (n a : Nat), r - a ≤ n → (requestFrom f r d a).attempts ≤ r - a + 1 := by
  intro n
  induction n with
  | zero =>
    intro a ha
    rw [requestFrom]
    split
    · simp
    · rw [dif_neg (by omega)]
      simp
  | succ n ih =>
    intro a ha
    rw [requestFrom]
    split
    · simp
    · by_cases hlt : a < r
      · rw [dif_pos hlt]
        have h2 := ih (a + 1) (by omega)
        dsimp only
        omega
      · rw [dif_neg hlt]
        simp

theorem requestFrom_delays (f : Nat → Except String JsVal) (r d : Nat) :
    ∀ (n a : Nat), r - a ≤ n →
      (requestFrom f r d a).delays
        = (List.range' a ((requestFrom f r d a).attempts - 1)).map
            (fun k => d * 2 ^ k) := by
  intro n
  induction n with
  | zero =>
    intro a ha
    rw [requestFrom]
    split
    · simp
    · rw [dif_neg (by omega)]
      simp
  | succ n ih =>
    intro a ha
    rw [requestFrom]
    split
    · simp
    · by_cases hlt : a < r
      · rw [dif_pos hlt]
        dsimp only
        have hpos := requestFrom_attempts_pos f r d (a + 1)
        obtain ⟨m, hm⟩ : ∃ m, (requestFrom f r d (a + 1)).attempts = m + 1 :=
          ⟨(requestFrom f r d (a + 1)).attempts - 1, by omega⟩
        rw [ih (a + 1) (by omega), hm]
        simp [List.range'_succ]
      · rw [dif_neg hlt]
        simp

theorem requestFrom_ok (f : Nat → Except String JsVal) (r d k : Nat)
    (v : JsVal) (hk : k ≤ r)
    (hfail : ∀ i, i < k → ∃ e, f i = Except.error e)
    (hok : f k = Except.ok v) :
    ∀ (n a : Nat), k - a ≤ n → a ≤ k →
      (requestFrom f r d a).result = Except.ok v ∧
        (requestFrom f r d a).attempts = k - a + 1 := by
  intro n
  induction n with
  | zero =>
    intro a ha hak
    have hae : a = k := by omega
    subst hae
    rw [requestFrom, hok]
    simp
  | succ n ih =>
    intro a ha hak
    by_cases hlt : a < k
    · obtain ⟨e, he⟩ := hfail a hlt
      have har : a < r := by omega
      rw [requestFrom]
      split
      next v1 heq => rw [he] at heq; cases heq
      next e1 heq =>
        rw [dif_pos har]
        dsimp only
        have h2 := ih (a + 1) (by omega) (by omega)
        refine ⟨h2.1, by omega⟩
    · have hae : a = k := by omega
      subst hae
      rw [requestFrom, hok]
      simp

theorem requestFrom_err (f : Nat → Except String JsVal) (r d : Nat)
    (errs : Nat → String)
    (hfail : ∀ i, i ≤ r → f i = Except.error (errs i)) :
    ∀ (n a : Nat), r - a ≤ n → a ≤ r →
      (requestFrom f r d a).result = Except.error (errs r) ∧
        (requestFrom f r d a).attempts = r - a + 1 := by
  intro n
  induction n with
  | zero =>
    intro a ha hak
    have hae : a = r := by omega
    subst hae
    rw [requestFrom, hfail a (by omega)]
    simp
  | succ n ih =>
    intro a ha hak
    by_cases hlt : a < r
    · rw [requestFrom]
      split
      next v1 heq => rw [hfail a (by omega)] at heq; cases heq
      next e1 heq =>
        rw [dif_pos hlt]
        dsimp only
        have h2 := ih (a + 1) (by omega) (by omega)
        refine ⟨h2.1, by omega⟩
    · have hae : a = r := by omega
      subst hae
      rw [requestFrom, hfail a (by omega)]
      simp

/-- C2: for a request with retry count `r` and retry delay `d`, the fetch is
attempted at most `r + 1` times; when `m` attempts happen, the performed
waits are exactly `d * 2^k` for the failed attempts `k = 0, ..., m - 2` (so
the wait after failed attempt `k` is `d * 2^k`); a request that fails on
attempts `0, ..., k - 1` (`k ≤ r`) and then succeeds resolves with the
successful attempt's parsed value after exactly `k + 1` invocations; and
when all `r + 1` attempts fail, the error of the last attempt is thrown,
never swallowed. -/
theorem retry_policy :
    ∀ (f : Nat → Except String JsVal) (r d : Nat),
      (apiRequest f r d).attempts ≤ r + 1 ∧
      (apiRequest f r d).delays
        = (List.range ((apiRequest f r d).attempts - 1)).map
            (fun k => d * 2 ^ k) ∧
      (∀ (k : Nat) (v : JsVal), k ≤ r →
        (∀ i, i < k → ∃ e, f i = Except.error e) → f k = Except.ok v →
        (apiRequest f r d).result = Except.ok v ∧
          (apiRequest f r d).attempts = k + 1) ∧
      (∀ errs : Nat → String, (∀ i, i ≤ r → f i = Except.error (errs i)) →
        (apiRequest f r d).result = Except.error (errs r) ∧
          (apiRequest f r d).attempts = r + 1) := by
  intro f r d
  refine ⟨?_, ?_, ?_, ?_⟩
  · have h := requestFrom_attempts_le f r d r 0 (by omega)
    simpa [apiRequest] using h
  · have h := requestFrom_delays f r d r 0 (by omega)
    rw [List.range_eq_range']
    exact h
  · intro k v hk hfail hok
    have h := requestFrom_ok f r d k v hk hfail hok k 0 (by omega) (by omega)
    simpa [apiRequest] using h
  · intro errs hfail
    have h := requestFrom_err f r d errs hfail r 0 (by omega) (by omega)
    simpa [apiRequest] using h

/-- A mocked endpoint that fails twice and then succeeds. -/
def failTwiceFetch : Nat → Except String JsVal :=
  fun i => if i < 2 then Except.error "boom" else Except.ok (JsVal.num 1)

/-- Witness for C2, matching the spec scenario: with `retries: 2` the mocked
fail-twice endpoint resolves after exactly 3 invocations with waits 1000 ms
then 2000 ms; with `retries: 1` it fails after exactly 2 invocations with
the last error thrown. -/
theorem retry_policy_witness :
    ((apiRequest failTwiceFetch 2 1000).result = Except.ok (JsVal.num 1) ∧
      (apiRequest failTwiceFetch 2 1000).attempts = 3) ∧
    ((apiRequest failTwiceFetch 1 1000).result = Except.error "boom" ∧
      (apiRequest failTwiceFetch 1 1000).attempts = 2) ∧
    (apiRequest failTwiceFetch 2 1000).delays = [1000, 2000] := by
  have h1 := (retry_policy failTwiceFetch 2 1000).2.2.1 2 (JsVal.num 1)
    (by omega)
    (fun i hi => ⟨"boom", by simp [failTwiceFetch, hi]⟩)
    (by simp [failTwiceFetch])
  have h2 := (retry_policy failTwiceFetch 1 1000).2.2.2 (fun _ => "boom")
    (fun i hi => by simp [failTwiceFetch]; omega)
  have h3 := (retry_policy failTwiceFetch 2 1000).2.1
  refine ⟨h1, h2, ?_⟩
  rw [h3, h1.2]
  rfl

/-! ### Claims C3 and C10: GET caching and the truthiness hit test -/

theorem getFromCache_valid (c : Client) (key : String) (now : Int)
    (v : JsVal) (ts ttl : Int) (hget : mapGet c.cache key = some ⟨v, ts, ttl⟩)
    (hvalid : now - ts < ttl) : getFromCache c key now = (some v, c) := by
  unfold getFromCache
  rw [hget]
  simp [hvalid]

theorem getFromCache_missing (c : Client) (key : String) (now : Int)
    (hget : mapGet c.cache key = none) :
    getFromCache c key now = (none, c) := by
  unfold getFromCache
  rw [hget]

theorem apiGet_of_mapGet_none (net : String → String → JsVal) (c : Client)
    (e : String) (cttl now : Int)
    (hget : mapGet c.cache (getCacheKey "GET" e) = none) :
    apiGet net c e true cttl now
      = ⟨net "GET" e,
         setCache c (getCacheKey "GET" e) (net "GET" e) cttl now,
         [⟨"GET", e⟩]⟩ := by
  have hl := getFromCache_missing c (getCacheKey "GET" e) now hget
  simp [apiGet, hl, apiGetNetwork, setCache]

/-- A generic backend used by concrete counterexamples and witnesses. -/
def anyNet : String → String → JsVal := fun _ _ => JsVal.obj []

/-- A client whose GET cache holds a `null` body for `/api/status`, stored
at time 0 with a 30000 ms TTL. -/
def nullCachedClient : Client :=
  ⟨[("GET:/api/status", ⟨JsVal.null, 0, 30000⟩)]⟩

/-- C3 counterexample: a valid, unexpired cache entry for
`GET /api/status` exists (stored at 0, TTL 30000, read at 10), yet because
its body is the falsy value `null`, `get` performs a network request instead
of returning the cached body with zero network activity. -/
theorem get_cached_falsy_counterexample :
    mapGet nullCachedClient.cache (getCacheKey "GET" "/api/status")
        = some ⟨JsVal.null, 0, 30000⟩ ∧
      ((10 : Int) - 0 < 30000) ∧
      (apiGet anyNet nullCachedClient "/api/status" true 30000 10).netCalls
        = [⟨"GET", "/api/status"⟩] := by
  exact ⟨rfl, by decide, rfl⟩

/-- C3 (amended): with caching enabled, a valid unexpired entry whose body
is truthy is returned as-is with zero network activity and an unchanged
cache; on a true miss the request is performed and the parsed response is
stored under the method+endpoint key with the requested TTL before being
returned; with `cache: false` the request is performed and nothing is
stored; and `post`, `put`, `delete` never read from or write to the GET
cache — each performs exactly one network request and leaves the client
unchanged. -/
theorem get_caching_semantics :
    (∀ (net : String → String → JsVal) (c : Client) (e : String)
        (cttl now : Int) (v : JsVal) (ts ttl : Int),
      mapGet c.cache (getCacheKey "GET" e) = some ⟨v, ts, ttl⟩ →
      now - ts < ttl → v.truthy = true →
      apiGet net c e true cttl now = ⟨v, c, []⟩) ∧
    (∀ (net : String → String → JsVal) (c : Client) (e : String)
        (cttl now : Int),
      mapGet c.cache (getCacheKey "GET" e) = none →
      apiGet net c e true cttl now
        = ⟨net "GET" e,
           setCache c (getCacheKey "GET" e) (net "GET" e) cttl now,
           [⟨"GET", e⟩]⟩) ∧
    (∀ (net : String → String → JsVal) (c : Client) (e : String)
        (cttl now : Int),
      apiGet net c e false cttl now = ⟨net "GET" e, c, [⟨"GET", e⟩]⟩) ∧
    (∀ (net : String → String → JsVal) (c : Client) (e : String),
      apiPost net c e = ⟨net "POST" e, c, [⟨"POST", e⟩]⟩ ∧
        apiPut net c e = ⟨net "PUT" e, c, [⟨"PUT", e⟩]⟩ ∧
        apiDelete net c e = ⟨net "DELETE" e, c, [⟨"DELETE", e⟩]⟩) := by
  refine ⟨?_, ?_, ?_, ?_⟩
  · intro net c e cttl now v ts ttl hget hvalid htruthy
    have hl := getFromCache_valid c (getCacheKey "GET" e) now v ts ttl
      hget hvalid
    simp [apiGet, hl, htruthy]
  · intro net c e cttl now hget
    exact apiGet_of_mapGet_none net c e cttl now hget
  · intro net c e cttl now
    simp [apiGet, apiGetNetwork]
  · intro net c e
    exact ⟨rfl, rfl, rfl⟩

/-- A client whose GET cache holds a truthy body for `/api/status`. -/
def truthyCachedClient : Client :=
  ⟨[("GET:/api/status", ⟨JsVal.num 7, 0, 30000⟩)]⟩

/-- Witness for C3: a truthy cached body is served with zero network
activity; on an empty cache the response is fetched and stored. -/
theorem get_caching_semantics_witness :
    apiGet anyNet truthyCachedClient "/api/status" true 30000 10
        = ⟨JsVal.num 7, truthyCachedClient, []⟩ ∧
      apiGet anyNet (Client.mk []) "/api/status" true 30000 10
        = ⟨anyNet "GET" "/api/status",
           setCache (Client.mk []) (getCacheKey "GET" "/api/status")
             (anyNet "GET" "/api/status") 30000 10,
           [⟨"GET", "/api/status"⟩]⟩ := by
  exact ⟨get_caching_semantics.1 anyNet truthyCachedClient "/api/status"
      30000 10 (JsVal.num 7) 0 30000 rfl (by decide) rfl,
    get_caching_semantics.2.1 anyNet (Client.mk []) "/api/status"
      30000 10 rfl⟩

/-- C10: when the GET cache holds a falsy JSON body (`null`, `false`, `0`,
`""`) for an endpoint, `get` never serves it as a cache hit — even with
caching enabled and the entry unexpired, the request goes to the network,
because the hit test checks the truthiness of the retrieved value. -/
theorem falsy_cached_value_never_served :
    ∀ (net : String → String → JsVal) (c : Client) (e : String)
      (cttl now : Int) (v : JsVal) (ts ttl : Int),
      mapGet c.cache (getCacheKey "GET" e) = some ⟨v, ts, ttl⟩ →
      v.truthy = false → now - ts < ttl →
      (apiGet net c e true cttl now).netCalls = [⟨"GET", e⟩] := by
  intro net c e cttl now v ts ttl hget hfalsy hvalid
  have hl := getFromCache_valid c (getCacheKey "GET" e) now v ts ttl
    hget hvalid
  simp [apiGet, hl, hfalsy, apiGetNetwork]

/-- Witness for C10: the `null`-bodied cached entry for `/api/status` is
unexpired at time 10, yet the request is sent to the network. -/
theorem falsy_cached_value_never_served_witness :
    (apiGet anyNet nullCachedClient "/api/status" true 30000 10).netCalls
      = [⟨"GET", "/api/status"⟩] := by
  exact falsy_cached_value_never_served anyNet nullCachedClient "/api/status"
    30000 10 JsVal.null 0 30000 rfl rfl (by decide)

/-! ### Claim C1: cache invalidation by mutating services -/

theorem clearCache_region (c : Client) (p : String) :
    ∀ kv ∈ (clearCache c (some p)).cache, strIncludes kv.1 p = false := by
  intro kv hkv
  have h := (List.mem_filter.mp hkv).2
  simpa using h

theorem apiGet_network_after_clear (net : String → String → JsVal)
    (c : Client) (p e : String) (cttl now : Int)
    (h : strIncludes (getCacheKey "GET" e) p = true) :
    apiGet net (clearCache c (some p)) e true cttl now
      = ⟨net "GET" e,
         setCache (clearCache c (some p)) (getCacheKey "GET" e)
           (net "GET" e) cttl now,
         [⟨"GET", e⟩]⟩ := by
  have hg : mapGet (clearCache c (some p)).cache (getCacheKey "GET" e)
      = none := by
    simp only [clearCache]
    exact mapGet_filter_pattern _ _ _ h
  exact apiGet_of_mapGet_none net (clearCache c (some p)) e cttl now hg

/-- A client whose GET cache holds a truthy recent-drops listing for
`GET /api/drops?limit=10`, stored at time 0 with the default 30000 ms TTL. -/
def dropsCachedClient : Client :=
  ⟨[("GET:/api/drops?limit=10", ⟨JsVal.arr [JsVal.num 5], 0, 30000⟩)]⟩

/-- C1 counterexample: `DropsService.deleteDrop` succeeds (its DELETE goes
to the network) but invalidates nothing, so a subsequent
`DropsService.getRecentDrops` within the TTL window is served from the cache
with zero network activity — contradicting the claim that every mutating
service (drop deletion included) invalidates the cache region whose
freshness it affects so that the affected GET hits the network again. -/
theorem deleteDrop_no_invalidation_counterexample :
    (dropsDeleteDrop anyNet dropsCachedClient "5").netCalls
        = [⟨"DELETE", "/api/drops/5"⟩] ∧
      (dropsDeleteDrop anyNet dropsCachedClient "5").client
        = dropsCachedClient ∧
      (dropsGetRecentDrops anyNet
          (dropsDeleteDrop anyNet dropsCachedClient "5").client 10 10).netCalls
        = [] ∧
      (dropsGetRecentDrops anyNet
          (dropsDeleteDrop anyNet dropsCachedClient "5").client 10 10).data
        = JsVal.arr [JsVal.num 5] := by
  exact ⟨rfl, rfl, rfl, rfl⟩

/-- C1 (amended): the watchlist mutations (add, remove, bulk add, bulk
remove) invalidate the fragrance-listing cache region after a successful
response and before returning — afterwards no cached key contains
`/api/stock/fragrances` and a subsequent fragrances GET performs a network
request — and the config saves likewise invalidate the `/api/config` region
so a subsequent config GET hits the network; but drop deletion and
stock-change deletion perform no cache invalidation at all, leaving the
client's cache unchanged. -/
theorem services_cache_invalidation :
    (∀ (net net2 : String → String → JsVal) (c : Client) (slug : String)
        (now : Int),
      (∀ kv ∈ (watchlistAddItem net c slug).client.cache,
        strIncludes kv.1 "/api/stock/fragrances" = false) ∧
      (stockGetFragrances net2 (watchlistAddItem net c slug).client
          now).netCalls = [⟨"GET", fragrancesEndpoint⟩]) ∧
    (∀ (net net2 : String → String → JsVal) (c : Client) (slug : String)
        (now : Int),
      (∀ kv ∈ (watchlistRemoveItem net c slug).client.cache,
        strIncludes kv.1 "/api/stock/fragrances" = false) ∧
      (stockGetFragrances net2 (watchlistRemoveItem net c slug).client
          now).netCalls = [⟨"GET", fragrancesEndpoint⟩]) ∧
    (∀ (net net2 : String → String → JsVal) (c : Client) (now : Int),
      (∀ kv ∈ (watchlistBulkAdd net c).client.cache,
        strIncludes kv.1 "/api/stock/fragrances" = false) ∧
      (stockGetFragrances net2 (watchlistBulkAdd net c).client now).netCalls
        = [⟨"GET", fragrancesEndpoint⟩] ∧
      (∀ kv ∈ (watchlistBulkRemove net c).client.cache,
        strIncludes kv.1 "/api/stock/fragrances" = false) ∧
      (stockGetFragrances net2 (watchlistBulkRemove net c).client
          now).netCalls = [⟨"GET", fragrancesEndpoint⟩]) ∧
    (∀ (net net2 : String → String → JsVal) (c : Client) (e : String)
        (now : Int), e ∈ configSaveEndpoints →
      (∀ kv ∈ (configSave net c e).client.cache,
        strIncludes kv.1 "/api/config" = false) ∧
      (configGetConfig net2 (configSave net c e).client now).netCalls
        = [⟨"GET", configGetEndpoint⟩]) ∧
    (∀ (net : String → String → JsVal) (c : Client) (id : String),
      (dropsDeleteDrop net c id).client = c ∧
        (stockDeleteChange net c id).client = c) := by
  have hfrag : strIncludes (getCacheKey "GET" fragrancesEndpoint)
      "/api/stock/fragrances" = true := by decide
  have hconf : strIncludes (getCacheKey "GET" configGetEndpoint)
      "/api/config" = true := by decide
  refine ⟨?_, ?_, ?_, ?_, ?_⟩
  · intro net net2 c slug now
    refine ⟨clearCache_region c "/api/stock/fragrances", ?_⟩
    show (apiGet net2 (clearCache c (some "/api/stock/fragrances"))
        fragrancesEndpoint true 60000 now).netCalls = _
    rw [apiGet_network_after_clear net2 c "/api/stock/fragrances"
      fragrancesEndpoint 60000 now hfrag]
  · intro net net2 c slug now
    refine ⟨clearCache_region c "/api/stock/fragrances", ?_⟩
    show (apiGet net2 (clearCache c (some "/api/stock/fragrances"))
        fragrancesEndpoint true 60000 now).netCalls = _
    rw [apiGet_network_after_clear net2 c "/api/stock/fragrances"
      fragrancesEndpoint 60000 now hfrag]
  · intro net net2 c now
    refine ⟨clearCache_region c "/api/stock/fragrances", ?_, 
      clearCache_region c "/api/stock/fragrances", ?_⟩
    · show (apiGet net2 (clearCache c (some "/api/stock/fragrances"))
          fragrancesEndpoint true 60000 now).netCalls = _
      rw [apiGet_network_after_clear net2 c "/api/stock/fragrances"
        fragrancesEndpoint 60000 now hfrag]
    · show (apiGet net2 (clearCache c (some "/api/stock/fragrances"))
          fragrancesEndpoint true 60000 now).netCalls = _
      rw [apiGet_network_after_clear net2 c "/api/stock/fragrances"
        fragrancesEndpoint 60000 now hfrag]
  · intro net net2 c e now he
    refine ⟨clearCache_region c "/api/config", ?_⟩
    show (apiGet net2 (clearCache c (some "/api/config"))
        configGetEndpoint true 30000 now).netCalls = _
    rw [apiGet_network_after_clear net2 c "/api/config"
      configGetEndpoint 30000 now hconf]
  · intro net c id
    exact ⟨rfl, rfl⟩

/-- Witness for C1 following the spec scenario: after the watchlist-add
service for slug `a` succeeds on a client holding a cached fragrances
listing, the cache holds no fragrances key and a subsequent
`GET /api/stock/fragrances` performs a network request; and a config save
to `/api/config/reddit` clears the config region. -/
theorem services_cache_invalidation_witness :
    (stockGetFragrances anyNet
        (watchlistAddItem anyNet
          ⟨[("GET:/api/stock/fragrances",
             ⟨JsVal.obj [("total", JsVal.num 1)], 0, 60000⟩)]⟩ "a").client
        10).netCalls = [⟨"GET", fragrancesEndpoint⟩] ∧
      (configGetConfig anyNet
        (configSave anyNet ⟨[]⟩ "/api/config/reddit").client 10).netCalls
        = [⟨"GET", configGetEndpoint⟩] ∧
      (dropsDeleteDrop anyNet dropsCachedClient "5").client
        = dropsCachedClient := by
  exact ⟨(services_cache_invalidation.1 anyNet anyNet
      ⟨[("GET:/api/stock/fragrances",
         ⟨JsVal.obj [("total", JsVal.num 1)], 0, 60000⟩)]⟩ "a" 10).2,
    (services_cache_invalidation.2.2.2.1 anyNet anyNet ⟨[]⟩
      "/api/config/reddit" 10 (by simp [configSaveEndpoints])).2,
    (services_cache_invalidation.2.2.2.2 anyNet dropsCachedClient "5").1⟩
